import Mathlib

/-!
Verification development for the openclaw-manager profile lifecycle manager.

The definitions below are shallow embeddings of the JavaScript sources:
* `src/lib/configure.js` — profile naming, model catalog, config generation,
  `deepMerge`, port allocation, profile listing/info/deletion;
* `src/lib/server.js` — ticket store handling for the SSE endpoints and the
  login handler;
* the login rate limiter lives in `src/lib/auth.js`, which is not part of the
  source tree; the three functions it exports are modelled from the spec and
  marked as such.

JSON documents are modelled by `JVal`; JavaScript objects become association
lists of `(key, value)` pairs in insertion order (JS objects preserve key
insertion order and never contain duplicate keys).
-/

namespace OpenclawManager

/-- A JSON value, mirroring the documents handled by `configure.js`.
Objects are association lists in key insertion order. -/
inductive JVal where
  | null
  | bool (b : Bool)
  | num (n : Int)
  | str (s : String)
  | arr (xs : List JVal)
  | obj (fields : List (String × JVal))

/-- JavaScript truthiness of a JSON value (`undefined` is represented by
`Option.none` at use sites). -/
def jtruthy : JVal → Bool
  | .null => false
  | .bool b => b
  | .num n => n != 0
  | .str s => s != ""
  | .arr _ => true
  | .obj _ => true

/-- `l[k]` for an association list: the value at the first occurrence of key
`k`, mirroring JS property lookup on an object (objects have unique keys). -/
def alistGet {α : Type} : List (String × α) → String → Option α
  | [], _ => none
  | (k', v) :: rest, k => if k' = k then some v else alistGet rest k

/-- `l[k] = v` for an association list: replace the value at the first
occurrence of `k` keeping its position, else append — exactly the behaviour of
JS property assignment / `Map.set` on insertion-ordered objects. -/
def alistSet {α : Type} : List (String × α) → String → α → List (String × α)
  | [], k, v => [(k, v)]
  | (k', v') :: rest, k, v =>
      if k' = k then (k, v) :: rest else (k', v') :: alistSet rest k v

/-- `Map.delete`: remove the entry with key `k` (removes every occurrence;
a JS `Map` holds at most one). -/
def alistDelete {α : Type} (l : List (String × α)) (k : String) : List (String × α) :=
  l.filter (fun e => e.1 ≠ k)

mutual

/-- `deepMerge(target, source)` from `src/lib/configure.js` lines 397-414:
`result = {...target}`; for each key of `source`, if both `source[key]` and
`target[key]` are truthy non-array objects, recurse; otherwise assign
`source[key]`.  In `JVal`, a truthy non-array object is exactly an `.obj`
(`null` is falsy, arrays are `.arr`).  The function is only ever called on two
objects; on any other input the compiled JS semantics of the body are not
modelled and we return `source` (this branch is unused by every theorem about
object inputs). -/
def deepMerge : JVal → JVal → JVal
  | .obj t, .obj s => .obj (mergeInto t t s)
  | _, s => s
termination_by a b => sizeOf b
decreasing_by all_goals simp_wf <;> omega

/-- The `for (const key of Object.keys(source))` loop of `deepMerge`:
`t` is the original target (the guard reads `target[key]`), `acc` the result
object being built (starts as the spread copy of `target`). -/
def mergeInto (t : List (String × JVal)) :
    List (String × JVal) → List (String × JVal) → List (String × JVal)
  | acc, [] => acc
  | acc, (k, v) :: rest => mergeInto t (alistSet acc k (mergeDecide t k v)) rest
termination_by acc s => sizeOf s
decreasing_by all_goals simp_wf <;> omega

/-- The per-key body of the `deepMerge` loop: the value stored for key `k`
whose `source` value is `v`. -/
def mergeDecide (t : List (String × JVal)) (k : String) (v : JVal) : JVal :=
  match v, alistGet t k with
  | .obj sv, some (.obj tv) => deepMerge (.obj tv) (.obj sv)
  | _, _ => v
termination_by sizeOf v + 1
decreasing_by all_goals simp_wf <;> omega

end

mutual

/-- Well-formedness of a `JVal` as the image of a real JavaScript value:
every object (recursively) has pairwise-distinct keys.  JS objects satisfy
this by construction.  Array elements are never merged into (the `deepMerge`
guard excludes arrays), so no condition is imposed below `.arr`. -/
def wfB : JVal → Bool
  | .obj l => decide (l.map Prod.fst).Nodup && wfFields l
  | _ => true
termination_by v => sizeOf v
decreasing_by all_goals simp_wf <;> omega

/-- All field values of an object are well-formed. -/
def wfFields : List (String × JVal) → Bool
  | [] => true
  | (_, v) :: rest => wfB v && wfFields rest
termination_by l => sizeOf l
decreasing_by all_goals simp_wf <;> omega

end

/-- `v[k]` when `v` is an object; `undefined` (= `none`) otherwise.  This is
JS member access on a value already known to be defined: primitives and
arrays have none of the config field names used here, so access yields
`undefined` on them exactly as `none` does. -/
def getField : JVal → String → Option JVal
  | .obj l, k => alistGet l k
  | _, _ => none

/-- Chained member access `v.k1.k2...` with short-circuiting on
`undefined`/non-objects, mirroring the truthiness-guarded `a && a.b && ...`
chains of the source (a falsy intermediate and a truthy primitive intermediate
both end the chain with no value). -/
def getPath : JVal → List String → Option JVal
  | v, [] => some v
  | v, k :: ks =>
    match getField v k with
    | some v' => getPath v' ks
    | none => none

/-- `xs[i]` on an array value. -/
def getIdx : JVal → Nat → Option JVal
  | .arr xs, i => xs.get? i
  | _, _ => none

/-! ## Ticket store (`src/lib/server.js`)

`ticketStore` is a `Map` from ticket id to `{ data, expiresAt }`.  The two
prepare endpoints (`POST /setup/prepare`, lines 111-123, and
`POST /connect/prepare`, lines 125-133) insert the request body with
`expiresAt = Date.now() + 60000`; the two stream endpoints
(`GET /setup-stream`, lines 136-142, and `GET /connect-stream`, lines
190-196) look the ticket up, answer HTTP 400 if it is absent or
`expiresAt < Date.now()`, and otherwise delete it before any further
validation or pipeline work.  The payload type is abstract (`α`). -/

/-- One stored ticket: the submitted request body and its expiry instant
(milliseconds). -/
structure Ticket (α : Type) where
  data : α
  expiresAt : Nat
  deriving DecidableEq

/-- `ticketStore.set(ticketId, { data, expiresAt: Date.now() + 60000 })`
performed by both prepare endpoints (`now` is `Date.now()`). -/
def ticketPut {α : Type} (st : List (String × Ticket α)) (id : String) (payload : α)
    (now : Nat) : List (String × Ticket α) :=
  alistSet st id ⟨payload, now + 60000⟩

/-- The redemption step shared by both stream endpoints: look up, reject if
missing or expired (store untouched), else delete-and-return.  Returns the
redeemed ticket (if any) and the store afterwards. -/
def ticketRedeem {α : Type} (st : List (String × Ticket α)) (id : String) (now : Nat) :
    Option (Ticket α) × List (String × Ticket α) :=
  match alistGet st id with
  | none => (none, st)
  | some t => if t.expiresAt < now then (none, st) else (some t, alistDelete st id)

/-- The HTTP status chosen by the ticket check of the stream endpoints:
400 ("Invalid or expired ticket") when the lookup fails or the ticket is
expired; 200 (the SSE response is started and the pipeline runs) otherwise. -/
def streamTicketStatus {α : Type} (st : List (String × Ticket α)) (id : String)
    (now : Nat) : Nat :=
  match alistGet st id with
  | none => 400
  | some t => if t.expiresAt < now then 400 else 200

/-- The background sweep (`server.js` lines 41-47): every 60 s, delete every
entry with `expiresAt < Date.now()`. -/
def ticketSweep {α : Type} (st : List (String × Ticket α)) (now : Nat) :
    List (String × Ticket α) :=
  st.filter (fun e => !(e.2.expiresAt < now : Bool))

/-! ## Login rate limiting (`src/lib/server.js` lines 52-73)

The three counter functions are imported from `src/lib/auth.js`, which is not
part of the source tree; they are modelled from the spec.  The handler itself
(order of the checks, responses, cookie) is embedded from `server.js`. -/

/-- Per-client failure counter: how many failures, and when the current
rolling window started. -/
structure RateEntry where
  count : Nat
  windowStart : Nat
  deriving DecidableEq

/-- Modelled from the spec: `checkRateLimit(ip)` of the missing
`src/lib/auth.js`.  Spec §4.7: login "rejects immediately if the client has
exceeded a failure threshold within a rolling window".  `maxFails` is the
threshold and `window` the window length; the spec fixes neither constant, so
both are parameters. -/
def checkRateLimit (maxFails window : Nat) (rm : List (String × RateEntry))
    (ip : String) (now : Nat) : Bool :=
  match alistGet rm ip with
  | none => true
  | some e => !(decide (maxFails ≤ e.count) && decide (now < e.windowStart + window))

/-- Modelled from the spec: `recordFailure(ip)` of the missing
`src/lib/auth.js` — "on mismatch records a failure". -/
def recordFailure (rm : List (String × RateEntry)) (ip : String) (now : Nat) :
    List (String × RateEntry) :=
  match alistGet rm ip with
  | none => alistSet rm ip ⟨1, now⟩
  | some e => alistSet rm ip ⟨e.count + 1, e.windowStart⟩

/-- Modelled from the spec: `clearFailure(ip)` of the missing
`src/lib/auth.js` — "on match clears the failure counter". -/
def clearFailure (rm : List (String × RateEntry)) (ip : String) :
    List (String × RateEntry) :=
  alistDelete rm ip

/-- Outcome of `POST /auth/login` as observable in the response. -/
inductive LoginResult where
  /-- HTTP 429, "Too many attempts. Try again later." -/
  | rateLimited
  /-- HTTP 401, "Invalid token". -/
  | invalidToken
  /-- HTTP 200, `{ success: true }`. -/
  | success
  deriving DecidableEq

/-- Result of one login request: the response, the failure-counter state
afterwards, and whether a `Set-Cookie: session=...` header was emitted. -/
structure LoginOutcome where
  result : LoginResult
  state : List (String × RateEntry)
  cookieSet : Bool

/-- The `POST /auth/login` handler (`server.js` lines 52-73): rate-limit
check first (429, nothing else happens); then token comparison against the
configured token (`provided = none` models a missing body, which fails the
comparison like a wrong token); failure records and answers 401; success
clears the counter and sets the session cookie. -/
def loginHandler (maxFails window : Nat) (rm : List (String × RateEntry))
    (ip : String) (provided : Option String) (expected : String) (now : Nat) :
    LoginOutcome :=
  if !checkRateLimit maxFails window rm ip now then
    ⟨.rateLimited, rm, false⟩
  else if provided ≠ some expected then
    ⟨.invalidToken, recordFailure rm ip now, false⟩
  else
    ⟨.success, clearFailure rm ip, true⟩

/-! ## Setup pipeline close handler (`src/lib/configure.js` lines 249-304)

`runSetupStream` spawns the onboarding subprocess and registers a `close`
handler; the returned `abort()` kills the child (`server.js` line 176 wires
it to the client-disconnect event).  A child killed by a signal closes with
exit code `null` — embedded as `none` — which is `!== 0`.  The close handler
decides everything that happens after onboarding, so the post-onboarding
stages of an invocation are a function of the exit code (plus whether the
best-effort reconcile / service install / service start calls succeed). -/

/-- Pipeline stages of the spec's setup state machine that the close handler
can reach. -/
inductive Stage where
  /-- Post-onboarding config reconciliation (the second `deepMerge` plus the
  plugin-entry repair) succeeded and was written. -/
  | reconciled
  /-- `openclaw gateway install` ran successfully. -/
  | serviceInstalled
  /-- `openclaw gateway start` was invoked (only after a successful install). -/
  | started
  /-- The promise resolved with `{ configPath, port }`. -/
  | done
  /-- The promise was rejected (failure branch of the pipeline). -/
  | failed
  deriving DecidableEq

/-- The stages performed by the `close` handler of `runSetupStream` for a
subprocess exit code (`none` = killed by signal): a non-zero code rejects at
once; code 0 reconciles (best effort), installs the service (best effort),
starts it only if the install succeeded, and resolves. -/
def closeStages (reconcileOk installOk startOk : Bool) (code : Option Int) :
    List Stage :=
  if code = some 0 then
    (if reconcileOk then [Stage.reconciled] else [])
      ++ (if installOk then
            Stage.serviceInstalled :: (if startOk then [Stage.started] else [])
          else [])
      ++ [Stage.done]
  else
    [Stage.failed]

/-- `abort()` of `runSetupStream` (lines 301-304): kill the child if it
exists and is not yet killed.  The child is `some killed`; `none` means the
spawn has not happened. -/
def abortKill : Option Bool → Option Bool
  | some false => some true
  | c => c

/-! ## Profile names and model catalog (`src/lib/configure.js`) -/

/-- A character allowed by the source regex `/^[a-zA-Z0-9_-]+$/`. -/
def isNameChar (c : Char) : Bool :=
  (decide ('a' ≤ c) && decide (c ≤ 'z')) || (decide ('A' ≤ c) && decide (c ≤ 'Z'))
    || (decide ('0' ≤ c) && decide (c ≤ '9')) || c = '_' || c = '-'

/-- `name.length` in JavaScript: the number of UTF-16 code units. -/
def utf16Len (s : String) : Nat :=
  s.data.foldl (fun n c => n + (if c.val < 65536 then 1 else 2)) 0

/-- `validateProfileName(name)` (`configure.js` lines 9-13):
`!name` (the empty string is falsy) and `"default"` return without error;
then the length bound, then the character-class regex (the regex also demands
non-emptiness, but the empty string was already accepted by the first guard). -/
def validateProfileName (name : String) : Except String Unit :=
  if name = "" || name = "default" then .ok ()
  else if 32 < utf16Len name then .error "Profile name too long (max 32 characters)"
  else if name.data.all isNameChar then .ok ()
  else .error "Profile name can only contain letters, numbers, hyphens and underscores"

/-- The name pattern stated by the specification, `^[A-Za-z0-9_-]{1,32}$`:
between 1 and 32 characters, all from the class.  (Stated from the spec's
words, for comparison against `validateProfileName`.) -/
def specNameRegex (name : String) : Bool :=
  decide (1 ≤ name.data.length) && decide (name.data.length ≤ 32)
    && name.data.all isNameChar

/-- One catalog entry `{ id, name }`. -/
structure ModelEntry where
  id : String
  name : String
  deriving DecidableEq

/-- `MODEL_CATALOG` (`configure.js` lines 15-22). -/
def MODEL_CATALOG : List ModelEntry :=
  [ ⟨"claude-opus-4-6", "Claude Opus 4.6"⟩,
    ⟨"claude-opus-4-5-20251101", "Claude Opus 4.5"⟩,
    ⟨"claude-sonnet-4-5-20250929", "Claude Sonnet 4.5"⟩,
    ⟨"claude-haiku-4-5-20251001", "Claude Haiku 4.5"⟩,
    ⟨"claude-opus-4-1-20250805", "Claude Opus 4.1"⟩,
    ⟨"claude-sonnet-4-20250514", "Claude Sonnet 4"⟩ ]

/-- The credentials argument of `generateConfig`: `channelCreds.botToken`
for Telegram, `channelCreds.appId`/`appSecret` for Feishu (only the fields
belonging to the selected channel are read). -/
structure ChannelCreds where
  botToken : String
  appId : String
  appSecret : String

/-- `generateConfig(apiKey, modelId, channel, channelCreds, port)`
(`configure.js` lines 136-199): the catalog entry for `modelId`, falling back
to `MODEL_CATALOG[0]` when the id is unknown (`find(...) || MODEL_CATALOG[0]`;
the `headD` default is unreachable, the catalog being non-empty); then the
fixed document, with a `channels` key appended only for the two known
channels. -/
def generateConfig (apiKey modelId channel : String) (creds : ChannelCreds)
    (port : Nat) : JVal :=
  let model := (MODEL_CATALOG.find? (fun m => m.id = modelId)).getD
    (MODEL_CATALOG.headD ⟨"", ""⟩)
  let base : List (String × JVal) :=
    [ ("models", .obj
        [ ("providers", .obj
            [ ("anthropic", .obj
                [ ("api", .str "anthropic-messages"),
                  ("baseUrl", .str "https://direct.evolink.ai"),
                  ("apiKey", .str apiKey),
                  ("models", .arr
                    [ .obj
                        [ ("id", .str model.id),
                          ("name", .str model.name),
                          ("reasoning", .bool false),
                          ("input", .arr [.str "text"]),
                          ("cost", .obj
                            [ ("input", .num 0), ("output", .num 0),
                              ("cacheRead", .num 0), ("cacheWrite", .num 0) ]),
                          ("contextWindow", .num 200000),
                          ("maxTokens", .num 8192) ] ]) ]) ]) ]),
      ("agents", .obj
        [ ("defaults", .obj
            [ ("model", .obj
                [ ("primary", .str ("anthropic/" ++ model.id)) ]) ]) ]),
      ("gateway", .obj [ ("port", .num port) ]) ]
  let fields :=
    if channel = "telegram" then
      base ++
        [ ("channels", .obj
            [ ("telegram", .obj
                [ ("enabled", .bool true),
                  ("botToken", .str creds.botToken),
                  ("dmPolicy", .str "pairing"),
                  ("groups", .obj
                    [ ("*", .obj [ ("requireMention", .bool true) ]) ]) ]) ]) ]
    else if channel = "feishu" then
      base ++
        [ ("channels", .obj
            [ ("feishu", .obj
                [ ("enabled", .bool true),
                  ("dmPolicy", .str "pairing"),
                  ("groupPolicy", .str "open"),
                  ("requireMention", .bool true),
                  ("accounts", .obj
                    [ ("main", .obj
                        [ ("appId", .str creds.appId),
                          ("appSecret", .str creds.appSecret) ]) ]) ]) ]) ]
    else base
  .obj fields

/-! ## Profile discovery, info, deletion (`src/lib/configure.js`)

The home directory is modelled as its entry listing in enumeration order.
Each entry carries whether it is a directory, whether it contains an
`openclaw.json` file, and that file's parsed content (`none` when the file is
absent or unparseable — `JSON.parse` failures and missing files take the same
`catch`/fallback paths everywhere in the source). -/

/-- One entry of the home directory. -/
structure DirEntry where
  name : String
  isDir : Bool
  /-- `existsSync(join(home, name, "openclaw.json"))`. -/
  hasCfgFile : Bool
  /-- The parsed content of that file, `none` if absent or unparseable. -/
  cfg : Option JVal

/-- `profileDir` (lines 24-27), reduced to the directory's base name:
`.openclaw` for the default profile, `.openclaw-<name>` otherwise. -/
def profileDirName (profile : String) : String :=
  if profile = "default" then ".openclaw" else ".openclaw-" ++ profile

/-- Find the home-directory entry with the given name. -/
def findEntry (fs : List DirEntry) (n : String) : Option DirEntry :=
  fs.find? (fun e => e.name = n)

/-- Does `join(home, profileDir(p), "openclaw.json")` exist? -/
def hasConfigFile (fs : List DirEntry) (p : String) : Bool :=
  match findEntry fs (profileDirName p) with
  | some e => e.hasCfgFile
  | none => false

/-- The parsed config of profile `p`, `none` when missing or unreadable. -/
def readCfg (fs : List DirEntry) (p : String) : Option JVal :=
  (findEntry fs (profileDirName p)).bind (fun e => e.cfg)

/-- JS `s.startsWith(pre)`: `pre` is a prefix of `s` (character-wise; all
directory-name prefixes involved are ASCII, where JS UTF-16 units and
characters coincide). -/
def strStartsWith (s pre : String) : Bool :=
  pre.data.isPrefixOf s.data

/-- JS `s.slice(n)`: drop the first `n` characters. -/
def strDrop (s : String) (n : Nat) : String :=
  ⟨s.data.drop n⟩

/-- `listProfiles()` (lines 44-64): `"default"` first when
`~/.openclaw/openclaw.json` exists, then every directory entry named
`.openclaw-<name>` with a non-empty `<name>` and an `openclaw.json` file, in
enumeration order. -/
def listProfiles (fs : List DirEntry) : List String :=
  (if hasConfigFile fs "default" then ["default"] else [])
    ++ fs.filterMap (fun e =>
        if e.isDir && strStartsWith e.name ".openclaw-" then
          let n := strDrop e.name ".openclaw-".length
          if n ≠ "" && e.hasCfgFile then some n else none
        else none)

/-- The fixed base port (`configure.js` line 7). -/
def BASE_PORT : Nat := 28789

/-- `readPort(profile)` (lines 66-74): `cfg.gateway && cfg.gateway.port`
with fallback to `BASE_PORT` when the config is missing/unreadable, the path
is absent, or the port value is falsy.  Port values written by this system
are always numbers (`generateConfig`); a truthy non-numeric port value is not
representable as a `Nat` and is out of the model. -/
def readPort (fs : List DirEntry) (p : String) : Nat :=
  match readCfg fs p with
  | none => BASE_PORT
  | some cfg =>
    match getPath cfg ["gateway", "port"] with
    | some (.num n) => if n = 0 then BASE_PORT else n.toNat
    | _ => BASE_PORT

/-- The `while (usedPorts.has(port)) port++` loop of `nextAvailablePort`,
with explicit fuel (the loop passes at most `used.length` occupied ports, so
any fuel beyond that returns the same, first free, port). -/
def findFree (used : List Nat) : Nat → Nat → Nat
  | 0, port => port
  | fuel + 1, port => if port ∈ used then findFree used fuel (port + 1) else port

/-- `nextAvailablePort()` (lines 126-134): collect `readPort` of every listed
profile, then scan upwards from `BASE_PORT` for the first port not in the
set. -/
def nextAvailablePort (fs : List DirEntry) : Nat :=
  let used := (listProfiles fs).map (readPort fs)
  findFree used (used.length + 1) BASE_PORT

/-- `deleteProfile(profile)` (lines 381-395), restricted to its effect on
the home directory: the gateway stop/uninstall subprocess calls touch nothing
under the home listing, and `rmSync(dir, { recursive: true, force: true })`
removes the profile directory. -/
def deleteProfile (fs : List DirEntry) (p : String) : List DirEntry :=
  fs.filter (fun e => e.name ≠ profileDirName p)

/-- The record returned by `getProfileInfo` (line 118). -/
structure ProfileInfo where
  profile : String
  port : Nat
  gateway : String
  model : String
  modelId : String
  channel : String
  deriving DecidableEq

/-- `primary.slice(primary.indexOf("/") + 1)` guarded by `slash >= 0`:
everything after the first `/`, or the whole string when it has none. -/
def afterFirstSlash (s : String) : String :=
  if s.data.contains '/' then .mk ((s.data.dropWhile (fun c => c ≠ '/')).drop 1)
  else s

/-- The model fields of `getProfileInfo` (lines 98-104), given a parsed
config: requires `cfg.agents.defaults.model.primary` to exist and be truthy.
A truthy non-string `primary` makes the source throw `TypeError` inside the
`try` (`.indexOf` on a non-string), aborting the whole block — signalled here
as `none`; such values never occur (the system writes `primary` as a
string). -/
def modelFieldsOf (cfg : JVal) : Option (String × String) :=
  match getPath cfg ["agents", "defaults", "model", "primary"] with
  | some (.str primary) =>
    let mid := afterFirstSlash primary
    match MODEL_CATALOG.find? (fun m => m.id = mid) with
    | some m => some (m.name, mid)
    | none => some (mid, mid)
  | some pv => if jtruthy pv then none else some ("", "")
  | none => some ("", "")

/-- The channel field of `getProfileInfo` (lines 106-113): `"Telegram"` when
`channels.telegram.enabled` is truthy, else `"Feishu"` when
`channels.feishu.enabled` is truthy, else the first key of `channels`.
`Object.keys` of a truthy non-object yields no usable key (channels written
by this system are objects). -/
def channelOf (cfg : JVal) : String :=
  match getField cfg "channels" with
  | some ch =>
    if jtruthy ch then
      if (getPath ch ["telegram", "enabled"]).any jtruthy then "Telegram"
      else if (getPath ch ["feishu", "enabled"]).any jtruthy then "Feishu"
      else
        match ch with
        | .obj ((k, _) :: _) => k
        | _ => ""
    else ""
  | none => ""

/-- `getProfileInfo(profile)` (lines 87-119): port from `readPort`, liveness
from the TCP probe of that port (the probe is the environment, passed as
`probe`), and model/channel fields read from the config inside one
`try`/`catch` — any failure (missing or unreadable config, `TypeError` on a
non-string `primary`) leaves all three fields empty. -/
def getProfileInfo (probe : Nat → Bool) (fs : List DirEntry) (p : String) :
    ProfileInfo :=
  let port := readPort fs p
  let running := probe port
  let fields :=
    match readCfg fs p with
    | none => ("", "", "")
    | some cfg =>
      match modelFieldsOf cfg with
      | none => ("", "", "")
      | some (model, mid) => (model, mid, channelOf cfg)
  { profile := p, port := port,
    gateway := if running then "running" else "stopped",
    model := fields.1, modelId := fields.2.1, channel := fields.2.2 }

/-! ## Association-list lemmas -/

theorem alistGet_set_self {α : Type} (l : List (String × α)) (k : String) (v : α) :
    alistGet (alistSet l k v) k = some v := by
  induction l with
  | nil => simp [alistSet, alistGet]
  | cons e rest ih =>
    obtain ⟨k', v'⟩ := e
    by_cases h : k' = k
    · subst h; simp [alistSet, alistGet]
    · simp [alistSet, alistGet, h, ih]

theorem alistGet_set_ne {α : Type} (l : List (String × α)) (k k' : String) (v : α)
    (h : k ≠ k') : alistGet (alistSet l k' v) k = alistGet l k := by
  have h' : ¬(k' = k) := fun hh => h hh.symm
  induction l with
  | nil => simp [alistSet, alistGet, h']
  | cons e rest ih =>
    obtain ⟨k₀, v₀⟩ := e
    by_cases h0 : k₀ = k'
    · subst h0
      simp [alistSet, alistGet, h']
    · simp [alistSet, alistGet, h0, ih]

theorem alistSet_get_eq {α : Type} (l : List (String × α)) (k : String) (v : α)
    (h : alistGet l k = some v) : alistSet l k v = l := by
  induction l with
  | nil => simp [alistGet] at h
  | cons e rest ih =>
    obtain ⟨k₀, v₀⟩ := e
    by_cases h0 : k₀ = k
    · subst h0
      simp [alistGet] at h
      simp [alistSet, h]
    · simp [alistGet, h0] at h
      simp [alistSet, h0, ih h]

theorem alistGet_delete_self {α : Type} (l : List (String × α)) (k : String) :
    alistGet (alistDelete l k) k = none := by
  induction l with
  | nil => simp [alistDelete, alistGet]
  | cons e rest ih =>
    obtain ⟨k₀, v₀⟩ := e
    by_cases h0 : k₀ = k
    · subst h0; simpa [alistDelete, alistGet] using ih
    · simpa [alistDelete, alistGet, h0] using ih

theorem alistGet_eq_none_of_notMem {α : Type} (l : List (String × α)) (k : String)
    (h : k ∉ l.map Prod.fst) : alistGet l k = none := by
  induction l with
  | nil => simp [alistGet]
  | cons e rest ih =>
    obtain ⟨k₀, v₀⟩ := e
    simp only [List.map_cons, List.mem_cons] at h
    push_neg at h
    have h' : ¬(k₀ = k) := fun hh => h.1 hh.symm
    simp [alistGet, h', ih h.2]

theorem mem_of_alistGet_eq_some {α : Type} (l : List (String × α)) (k : String)
    (v : α) (h : alistGet l k = some v) : (k, v) ∈ l := by
  induction l with
  | nil => simp [alistGet] at h
  | cons e rest ih =>
    obtain ⟨k₀, v₀⟩ := e
    by_cases h0 : k₀ = k
    · subst h0
      simp [alistGet] at h
      simp [h]
    · simp only [alistGet, h0, if_false] at h
      exact List.mem_cons_of_mem _ (ih h)

theorem alistGet_eq_some_of_mem {α : Type} (l : List (String × α)) (k : String)
    (v : α) (hnd : (l.map Prod.fst).Nodup) (h : (k, v) ∈ l) :
    alistGet l k = some v := by
  induction l with
  | nil => simp at h
  | cons e rest ih =>
    obtain ⟨k₀, v₀⟩ := e
    simp only [List.map_cons, List.nodup_cons] at hnd
    rcases List.mem_cons.mp h with h1 | h1
    · obtain ⟨rfl, rfl⟩ := Prod.mk.injEq .. ▸ h1
      simp [alistGet]
    · have hk : k₀ ≠ k := by
        rintro rfl
        exact hnd.1 (List.mem_map.mpr ⟨(k₀, v), h1, rfl⟩)
      simp [alistGet, hk, ih hnd.2 h1]

theorem mem_keys_of_mem_keys_filter {α : Type} (l : List (String × α)) (k : String)
    (q : String × α → Bool) (h : k ∈ (l.filter q).map Prod.fst) :
    k ∈ l.map Prod.fst := by
  obtain ⟨e, he, hek⟩ := List.mem_map.mp h
  exact List.mem_map.mpr ⟨e, List.mem_of_mem_filter he, hek⟩

theorem alistGet_filter {α : Type} (l : List (String × α)) (k : String) (v : α)
    (q : String × α → Bool) (hnd : (l.map Prod.fst).Nodup)
    (h : alistGet l k = some v) :
    alistGet (l.filter q) k = if q (k, v) then some v else none := by
  induction l with
  | nil => simp [alistGet] at h
  | cons e rest ih =>
    obtain ⟨k₀, v₀⟩ := e
    simp only [List.map_cons, List.nodup_cons] at hnd
    by_cases h0 : k₀ = k
    · subst h0
      simp [alistGet] at h
      subst h
      have hrest : alistGet (rest.filter q) k₀ = none := by
        apply alistGet_eq_none_of_notMem
        intro hmem
        exact hnd.1 (mem_keys_of_mem_keys_filter rest k₀ q hmem)
      by_cases hq : q (k₀, v₀) = true
      · simp [List.filter_cons, hq, alistGet]
      · simp only [Bool.not_eq_true] at hq
        simp [List.filter_cons, hq, hrest]
    · simp only [alistGet, h0, if_false] at h
      by_cases hq : q (k₀, v₀) = true
      · simp [List.filter_cons, hq, alistGet, h0, ih hnd.2 h]
      · simp only [Bool.not_eq_true] at hq
        simp [List.filter_cons, hq, ih hnd.2 h]

/-! ## Unfolding and lookup lemmas for `deepMerge` -/

theorem deepMerge_obj_obj (t s : List (String × JVal)) :
    deepMerge (.obj t) (.obj s) = .obj (mergeInto t t s) := by
  rw [deepMerge]

theorem deepMerge_nonobj_left (a b : JVal) (h : ∀ l, a ≠ JVal.obj l) :
    deepMerge a b = b := by
  cases a with
  | obj l => exact absurd rfl (h l)
  | null => simp [deepMerge]
  | bool x => simp [deepMerge]
  | num x => simp [deepMerge]
  | str x => simp [deepMerge]
  | arr x => simp [deepMerge]

theorem deepMerge_nonobj_right (a b : JVal) (h : ∀ l, b ≠ JVal.obj l) :
    deepMerge a b = b := by
  cases b with
  | obj l => exact absurd rfl (h l)
  | null => cases a <;> simp [deepMerge]
  | bool x => cases a <;> simp [deepMerge]
  | num x => cases a <;> simp [deepMerge]
  | str x => cases a <;> simp [deepMerge]
  | arr x => cases a <;> simp [deepMerge]

theorem mergeInto_nil (t acc : List (String × JVal)) : mergeInto t acc [] = acc := by
  rw [mergeInto]

theorem mergeInto_cons (t acc : List (String × JVal)) (k : String) (v : JVal)
    (rest : List (String × JVal)) :
    mergeInto t acc ((k, v) :: rest)
      = mergeInto t (alistSet acc k (mergeDecide t k v)) rest := by
  rw [mergeInto]

theorem mergeDecide_nonobj (t : List (String × JVal)) (k : String) (v : JVal)
    (h : ∀ l, v ≠ JVal.obj l) : mergeDecide t k v = v := by
  cases v with
  | obj l => exact absurd rfl (h l)
  | null => rw [mergeDecide.eq_def]
  | bool x => rw [mergeDecide.eq_def]
  | num x => rw [mergeDecide.eq_def]
  | str x => rw [mergeDecide.eq_def]
  | arr x => rw [mergeDecide.eq_def]

theorem mergeDecide_obj_obj (t : List (String × JVal)) (k : String)
    (sv tv : List (String × JVal)) (h : alistGet t k = some (.obj tv)) :
    mergeDecide t k (.obj sv) = deepMerge (.obj tv) (.obj sv) := by
  rw [mergeDecide.eq_def, h]

theorem mergeDecide_obj_not (t : List (String × JVal)) (k : String)
    (sv : List (String × JVal)) (h : ∀ tv, alistGet t k ≠ some (.obj tv)) :
    mergeDecide t k (.obj sv) = .obj sv := by
  rw [mergeDecide.eq_def]
  cases hg : alistGet t k with
  | none => rfl
  | some w =>
    cases w with
    | obj tv => exact absurd hg (h tv)
    | null => rfl
    | bool x => rfl
    | num x => rfl
    | str x => rfl
    | arr x => rfl

theorem mergeInto_get_notMem (t : List (String × JVal)) :
    ∀ (s acc : List (String × JVal)) (k : String), k ∉ s.map Prod.fst →
      alistGet (mergeInto t acc s) k = alistGet acc k := by
  intro s
  induction s with
  | nil => intro acc k _; rw [mergeInto_nil]
  | cons e rest ih =>
    intro acc k h
    obtain ⟨k₀, v₀⟩ := e
    simp only [List.map_cons, List.mem_cons] at h
    push_neg at h
    rw [mergeInto_cons, ih _ _ h.2, alistGet_set_ne _ _ _ _ h.1]

theorem mergeInto_get_mem (t : List (String × JVal)) :
    ∀ (s acc : List (String × JVal)) (k : String) (v : JVal),
      (s.map Prod.fst).Nodup → (k, v) ∈ s →
      alistGet (mergeInto t acc s) k = some (mergeDecide t k v) := by
  intro s
  induction s with
  | nil => intro acc k v _ h; simp at h
  | cons e rest ih =>
    intro acc k v hnd h
    obtain ⟨k₀, v₀⟩ := e
    simp only [List.map_cons, List.nodup_cons] at hnd
    rcases List.mem_cons.mp h with h1 | h1
    · injection h1 with hk hv
      subst hk; subst hv
      rw [mergeInto_cons, mergeInto_get_notMem t rest _ _ hnd.1, alistGet_set_self]
    · have hk : k ≠ k₀ := by
        rintro rfl
        exact hnd.1 (List.mem_map.mpr ⟨(k, v), h1, rfl⟩)
      rw [mergeInto_cons]
      exact ih _ _ _ hnd.2 h1

theorem mergeInto_id (t : List (String × JVal)) :
    ∀ (s acc : List (String × JVal)),
      (∀ p ∈ s, alistSet acc p.1 (mergeDecide t p.1 p.2) = acc) →
      mergeInto t acc s = acc := by
  intro s
  induction s with
  | nil => intro acc _; rw [mergeInto_nil]
  | cons e rest ih =>
    intro acc h
    obtain ⟨k₀, v₀⟩ := e
    rw [mergeInto_cons, h (k₀, v₀) (List.mem_cons_self _ _)]
    exact ih acc (fun p hp => h p (List.mem_cons_of_mem _ hp))

/-! ## Well-formedness lemmas -/

theorem wfB_obj_iff (l : List (String × JVal)) :
    wfB (.obj l) = true ↔ (l.map Prod.fst).Nodup ∧ wfFields l = true := by
  rw [wfB]
  simp

theorem wfFields_mem (l : List (String × JVal)) (k : String) (v : JVal)
    (hw : wfFields l = true) (h : (k, v) ∈ l) : wfB v = true := by
  induction l with
  | nil => simp at h
  | cons e rest ih =>
    obtain ⟨k₀, v₀⟩ := e
    rw [wfFields] at hw
    simp only [Bool.and_eq_true] at hw
    rcases List.mem_cons.mp h with h1 | h1
    · injection h1 with hk hv
      subst hv
      exact hw.1
    · exact ih hw.2 h1

theorem sizeOf_snd_lt_of_mem (l : List (String × JVal)) (k : String) (v : JVal)
    (h : (k, v) ∈ l) : sizeOf v < sizeOf l := by
  have h1 := List.sizeOf_lt_of_mem h
  have h2 : sizeOf (k, v) = 1 + sizeOf k + sizeOf v := rfl
  omega

theorem JVal.one_le_sizeOf (v : JVal) : 1 ≤ sizeOf v := by
  cases v <;> simp <;> omega

/-- Merging a well-formed object (or any well-formed value) with itself is the
identity: the source's `deepMerge(X, X) = X`. -/
theorem deepMerge_self_aux :
    ∀ (n : Nat) (v : JVal), sizeOf v ≤ n → wfB v = true → deepMerge v v = v := by
  intro n
  induction n with
  | zero =>
    intro v hv _
    exact absurd hv (by have := JVal.one_le_sizeOf v; omega)
  | succ n ih =>
    intro v hv hw
    cases v with
    | obj l =>
      obtain ⟨hnd, hwf⟩ := (wfB_obj_iff l).mp hw
      rw [deepMerge_obj_obj]
      congr 1
      apply mergeInto_id
      intro p hp
      obtain ⟨k, u⟩ := p
      have hget : alistGet l k = some u := alistGet_eq_some_of_mem _ _ _ hnd hp
      have hwu : wfB u = true := wfFields_mem _ _ _ hwf hp
      have hsz : sizeOf u ≤ n := by
        have h1 := sizeOf_snd_lt_of_mem l k u hp
        have h2 : sizeOf (JVal.obj l) = 1 + sizeOf l := by simp
        omega
      have hmd : mergeDecide l k u = u := by
        cases u with
        | obj su =>
          rw [mergeDecide_obj_obj _ _ _ _ hget]
          exact ih _ hsz hwu
        | null => exact mergeDecide_nonobj _ _ _ (by simp)
        | bool x => exact mergeDecide_nonobj _ _ _ (by simp)
        | num x => exact mergeDecide_nonobj _ _ _ (by simp)
        | str x => exact mergeDecide_nonobj _ _ _ (by simp)
        | arr x => exact mergeDecide_nonobj _ _ _ (by simp)
      rw [hmd]
      exact alistSet_get_eq _ _ _ hget
    | null => exact deepMerge_nonobj_right _ _ (by simp)
    | bool x => exact deepMerge_nonobj_right _ _ (by simp)
    | num x => exact deepMerge_nonobj_right _ _ (by simp)
    | str x => exact deepMerge_nonobj_right _ _ (by simp)
    | arr x => exact deepMerge_nonobj_right _ _ (by simp)

theorem deepMerge_self (v : JVal) (h : wfB v = true) : deepMerge v v = v :=
  deepMerge_self_aux (sizeOf v) v le_rfl h

/-- Re-merging the same overlay changes nothing; induction kernel for the
idempotence claim. -/
theorem deepMerge_idem_aux :
    ∀ (n : Nat) (B : JVal), sizeOf B ≤ n → wfB B = true →
      ∀ A : JVal, deepMerge (deepMerge A B) B = deepMerge A B := by
  intro n
  induction n with
  | zero =>
    intro B hB _ _
    exact absurd hB (by have := JVal.one_le_sizeOf B; omega)
  | succ n ih =>
    intro B hB hw A
    cases B with
    | obj sB =>
      obtain ⟨hnd, hwf⟩ := (wfB_obj_iff sB).mp hw
      cases A with
      | obj tA =>
        rw [deepMerge_obj_obj tA sB, deepMerge_obj_obj (mergeInto tA tA sB) sB]
        congr 1
        apply mergeInto_id
        intro p hp
        obtain ⟨k, v⟩ := p
        have hget_m :
            alistGet (mergeInto tA tA sB) k = some (mergeDecide tA k v) :=
          mergeInto_get_mem tA sB tA k v hnd hp
        have hwv : wfB v = true := wfFields_mem _ _ _ hwf hp
        have hsz : sizeOf v ≤ n := by
          have h1 := sizeOf_snd_lt_of_mem sB k v hp
          have h2 : sizeOf (JVal.obj sB) = 1 + sizeOf sB := by simp
          omega
        have hmd : mergeDecide (mergeInto tA tA sB) k v = mergeDecide tA k v := by
          cases v with
          | obj sv =>
            have hcase2 :
                (∀ tv, alistGet tA k ≠ some (JVal.obj tv)) →
                  mergeDecide (mergeInto tA tA sB) k (JVal.obj sv)
                    = mergeDecide tA k (JVal.obj sv) := by
              intro hnot
              have hw1 : mergeDecide tA k (JVal.obj sv) = JVal.obj sv :=
                mergeDecide_obj_not tA k sv hnot
              rw [hw1]
              rw [hw1] at hget_m
              rw [mergeDecide_obj_obj _ _ _ _ hget_m]
              exact deepMerge_self _ hwv
            cases htv : alistGet tA k with
            | none => exact hcase2 (by simp [htv])
            | some tv0 =>
              cases tv0 with
              | obj tv =>
                have hw1 : mergeDecide tA k (JVal.obj sv)
                    = deepMerge (JVal.obj tv) (JVal.obj sv) :=
                  mergeDecide_obj_obj tA k sv tv htv
                rw [hw1] at hget_m
                rw [deepMerge_obj_obj tv sv] at hget_m
                rw [mergeDecide_obj_obj _ _ _ _ hget_m, hw1]
                rw [← deepMerge_obj_obj tv sv]
                exact ih (JVal.obj sv) hsz hwv (JVal.obj tv)
              | null => exact hcase2 (by simp [htv])
              | bool x => exact hcase2 (by simp [htv])
              | num x => exact hcase2 (by simp [htv])
              | str x => exact hcase2 (by simp [htv])
              | arr x => exact hcase2 (by simp [htv])
          | null =>
            rw [mergeDecide_nonobj _ _ _ (by simp), mergeDecide_nonobj _ _ _ (by simp)]
          | bool x =>
            rw [mergeDecide_nonobj _ _ _ (by simp), mergeDecide_nonobj _ _ _ (by simp)]
          | num x =>
            rw [mergeDecide_nonobj _ _ _ (by simp), mergeDecide_nonobj _ _ _ (by simp)]
          | str x =>
            rw [mergeDecide_nonobj _ _ _ (by simp), mergeDecide_nonobj _ _ _ (by simp)]
          | arr x =>
            rw [mergeDecide_nonobj _ _ _ (by simp), mergeDecide_nonobj _ _ _ (by simp)]
        rw [hmd]
        exact alistSet_get_eq _ _ _ hget_m
      | null =>
        rw [deepMerge_nonobj_left JVal.null _ (by simp)]
        exact deepMerge_self _ hw
      | bool x =>
        rw [deepMerge_nonobj_left (JVal.bool x) _ (by simp)]
        exact deepMerge_self _ hw
      | num x =>
        rw [deepMerge_nonobj_left (JVal.num x) _ (by simp)]
        exact deepMerge_self _ hw
      | str x =>
        rw [deepMerge_nonobj_left (JVal.str x) _ (by simp)]
        exact deepMerge_self _ hw
      | arr x =>
        rw [deepMerge_nonobj_left (JVal.arr x) _ (by simp)]
        exact deepMerge_self _ hw
    | null =>
      rw [deepMerge_nonobj_right A _ (by simp), deepMerge_nonobj_right _ _ (by simp)]
    | bool x =>
      rw [deepMerge_nonobj_right A _ (by simp), deepMerge_nonobj_right _ _ (by simp)]
    | num x =>
      rw [deepMerge_nonobj_right A _ (by simp), deepMerge_nonobj_right _ _ (by simp)]
    | str x =>
      rw [deepMerge_nonobj_right A _ (by simp), deepMerge_nonobj_right _ _ (by simp)]
    | arr x =>
      rw [deepMerge_nonobj_right A _ (by simp), deepMerge_nonobj_right _ _ (by simp)]

/-! ## Claim theorems: `deepMerge` (C3, C4) -/

/-- C3. `deepMerge(base, overlay)` is a recursive key-wise union: for each
key of the overlay, if both sides hold (non-array) objects the stored value is
the recursive merge; otherwise the overlay's value replaces the base's
wholesale (in particular for every overlapping key with a scalar or array
overlay value the result is the overlay's value); keys present only in the
base are preserved unchanged.  Overlay keys are assumed distinct, as JS
objects guarantee. -/
theorem deepMerge_keywise_union (t s : List (String × JVal))
    (hnd : (s.map Prod.fst).Nodup) :
    (∀ (k : String) (sv tv : List (String × JVal)),
        alistGet s k = some (JVal.obj sv) → alistGet t k = some (JVal.obj tv) →
        getField (deepMerge (JVal.obj t) (JVal.obj s)) k
          = some (deepMerge (JVal.obj tv) (JVal.obj sv)))
    ∧ (∀ (k : String) (sv : JVal), alistGet s k = some sv →
        (∀ l, sv ≠ JVal.obj l) ∨ (∀ tv, alistGet t k ≠ some (JVal.obj tv)) →
        getField (deepMerge (JVal.obj t) (JVal.obj s)) k = some sv)
    ∧ (∀ k : String, alistGet s k = none →
        getField (deepMerge (JVal.obj t) (JVal.obj s)) k = alistGet t k) := by
  rw [deepMerge_obj_obj]
  refine ⟨?_, ?_, ?_⟩
  · intro k sv tv hs ht
    have hmem := mem_of_alistGet_eq_some s k _ hs
    rw [getField, mergeInto_get_mem t s t k _ hnd hmem,
      mergeDecide_obj_obj t k sv tv ht]
  · intro k sv hs hcase
    have hmem := mem_of_alistGet_eq_some s k _ hs
    rw [getField, mergeInto_get_mem t s t k _ hnd hmem]
    rcases hcase with hno | hno
    · rw [mergeDecide_nonobj t k sv hno]
    · cases sv with
      | obj svl => rw [mergeDecide_obj_not t k svl hno]
      | null => rw [mergeDecide_nonobj _ _ _ (by simp)]
      | bool x => rw [mergeDecide_nonobj _ _ _ (by simp)]
      | num x => rw [mergeDecide_nonobj _ _ _ (by simp)]
      | str x => rw [mergeDecide_nonobj _ _ _ (by simp)]
      | arr x => rw [mergeDecide_nonobj _ _ _ (by simp)]
  · intro k hs
    have hnotmem : k ∉ s.map Prod.fst := by
      intro hmem
      obtain ⟨⟨k0, v0⟩, he, hek⟩ := List.mem_map.mp hmem
      have hek' : k0 = k := hek
      subst hek'
      rw [alistGet_eq_some_of_mem s k0 v0 hnd he] at hs
      exact Option.noConfusion hs
    rw [getField, mergeInto_get_notMem t s t k hnotmem]

/-- Witness for C3: on `base = {a: 1, n: {x: 9}}`, `overlay = {a: 2, m: [3]}`
the overlapping scalar key `a` takes the overlay's value `2`, the array value
`m` is taken wholesale, and the base-only key `n` is preserved. -/
theorem deepMerge_keywise_union_witness :
    getField (deepMerge
        (JVal.obj [("a", JVal.num 1), ("n", JVal.obj [("x", JVal.num 9)])])
        (JVal.obj [("a", JVal.num 2), ("m", JVal.arr [JVal.num 3])])) "a"
      = some (JVal.num 2)
    ∧ getField (deepMerge
        (JVal.obj [("a", JVal.num 1), ("n", JVal.obj [("x", JVal.num 9)])])
        (JVal.obj [("a", JVal.num 2), ("m", JVal.arr [JVal.num 3])])) "m"
      = some (JVal.arr [JVal.num 3])
    ∧ getField (deepMerge
        (JVal.obj [("a", JVal.num 1), ("n", JVal.obj [("x", JVal.num 9)])])
        (JVal.obj [("a", JVal.num 2), ("m", JVal.arr [JVal.num 3])])) "n"
      = some (JVal.obj [("x", JVal.num 9)]) :=
  have h := deepMerge_keywise_union
    [("a", JVal.num 1), ("n", JVal.obj [("x", JVal.num 9)])]
    [("a", JVal.num 2), ("m", JVal.arr [JVal.num 3])] (by decide)
  ⟨h.2.1 "a" (JVal.num 2) rfl (Or.inl (by simp)),
   h.2.1 "m" (JVal.arr [JVal.num 3]) rfl (Or.inl (by simp)),
   (h.2.2 "n" rfl).trans rfl⟩

/-- C4. Merging the same overlay twice is the same as merging it once:
`deepMerge(deepMerge(A, B), B) = deepMerge(A, B)` for all documents `A`, `B`
(`B` well-formed in the sense of `wfB`, which every JS object satisfies). -/
theorem deepMerge_overlay_idem (A B : JVal) (h : wfB B = true) :
    deepMerge (deepMerge A B) B = deepMerge A B :=
  deepMerge_idem_aux (sizeOf B) B le_rfl h A

/-- Witness for C4 at concrete nested documents. -/
theorem deepMerge_overlay_idem_witness :
    deepMerge
      (deepMerge (JVal.obj [("a", JVal.num 1), ("c", JVal.obj [("x", JVal.num 9)])])
        (JVal.obj [("a", JVal.num 2), ("c", JVal.obj [("y", JVal.str "s")])]))
      (JVal.obj [("a", JVal.num 2), ("c", JVal.obj [("y", JVal.str "s")])])
    = deepMerge (JVal.obj [("a", JVal.num 1), ("c", JVal.obj [("x", JVal.num 9)])])
        (JVal.obj [("a", JVal.num 2), ("c", JVal.obj [("y", JVal.str "s")])]) :=
  deepMerge_overlay_idem
    (JVal.obj [("a", JVal.num 1), ("c", JVal.obj [("x", JVal.num 9)])])
    (JVal.obj [("a", JVal.num 2), ("c", JVal.obj [("y", JVal.str "s")])])
    (by simp [wfB, wfFields])

/-! ## Claim theorems: ticket store (C1, C7) -/

/-- C1. A ticket issued by a prepare endpoint and first redeemed at a stream
endpoint at or before its expiry returns the stored payload and removes the
id from the store (before any pipeline work: the delete precedes every
further check in both handlers); any later redemption of the same id, at any
time `n2`, gets HTTP 400.  `hfresh` is the freshness of `randomUUID()`. -/
theorem ticket_single_redemption {α : Type} (st : List (String × Ticket α))
    (id : String) (payload : α) (t0 n1 n2 : Nat)
    (hfresh : alistGet st id = none) (h1 : n1 ≤ t0 + 60000) :
    (ticketRedeem (ticketPut st id payload t0) id n1).1
      = some ⟨payload, t0 + 60000⟩
    ∧ alistGet (ticketRedeem (ticketPut st id payload t0) id n1).2 id = none
    ∧ streamTicketStatus (ticketRedeem (ticketPut st id payload t0) id n1).2 id n2
      = 400 := by
  have hget : alistGet (ticketPut st id payload t0) id
      = some ⟨payload, t0 + 60000⟩ := alistGet_set_self st id _
  have hred : ticketRedeem (ticketPut st id payload t0) id n1
      = (some ⟨payload, t0 + 60000⟩, alistDelete (ticketPut st id payload t0) id) := by
    unfold ticketRedeem
    rw [hget]
    dsimp only
    rw [if_neg (by omega)]
  refine ⟨by rw [hred], ?_, ?_⟩
  · rw [hred]
    exact alistGet_delete_self _ _
  · rw [hred]
    unfold streamTicketStatus
    rw [alistGet_delete_self]

/-- Witness for C1: a fresh ticket in an empty store, redeemed at the expiry
instant, then re-tried much later. -/
theorem ticket_single_redemption_witness :
    (ticketRedeem (ticketPut ([] : List (String × Ticket Nat)) "tk" 7 0) "tk" 60000).1
      = some ⟨7, 60000⟩
    ∧ alistGet (ticketRedeem (ticketPut ([] : List (String × Ticket Nat)) "tk" 7 0)
        "tk" 60000).2 "tk" = none
    ∧ streamTicketStatus (ticketRedeem (ticketPut ([] : List (String × Ticket Nat)) "tk" 7 0)
        "tk" 60000).2 "tk" 999999 = 400 :=
  ticket_single_redemption [] "tk" 7 0 60000 999999 rfl (by omega)

/-- C7. A ticket whose TTL has elapsed (`expiresAt < now`) is unredeemable
even on first attempt: HTTP 400, the store (hence the pipeline) untouched —
and equally after the background sweep has run at any instant `ns`, whether
or not that sweep removed the entry. -/
theorem ticket_expired_unredeemable {α : Type} (st : List (String × Ticket α))
    (id : String) (t : Ticket α) (now ns : Nat)
    (hnd : (st.map Prod.fst).Nodup)
    (hget : alistGet st id = some t) (hexp : t.expiresAt < now) :
    streamTicketStatus st id now = 400
    ∧ ticketRedeem st id now = (none, st)
    ∧ streamTicketStatus (ticketSweep st ns) id now = 400 := by
  refine ⟨?_, ?_, ?_⟩
  · unfold streamTicketStatus
    rw [hget]
    dsimp only
    rw [if_pos hexp]
  · unfold ticketRedeem
    rw [hget]
    dsimp only
    rw [if_pos hexp]
  · unfold streamTicketStatus ticketSweep
    rw [alistGet_filter st id t _ hnd hget]
    by_cases hs : t.expiresAt < ns
    · rw [if_neg (by simp [hs])]
    · rw [if_pos (by simp [hs])]
      dsimp only
      rw [if_pos hexp]

/-- Witness for C7: a ticket that expired at 60000, first redeemed at 60001,
around a sweep at 70000. -/
theorem ticket_expired_unredeemable_witness :
    streamTicketStatus [("tk", (⟨3, 60000⟩ : Ticket Nat))] "tk" 60001 = 400
    ∧ ticketRedeem [("tk", (⟨3, 60000⟩ : Ticket Nat))] "tk" 60001
      = (none, [("tk", (⟨3, 60000⟩ : Ticket Nat))])
    ∧ streamTicketStatus (ticketSweep [("tk", (⟨3, 60000⟩ : Ticket Nat))] 70000)
        "tk" 60001 = 400 :=
  ticket_expired_unredeemable [("tk", ⟨3, 60000⟩)] "tk" ⟨3, 60000⟩ 60001 70000
    (by simp) rfl (by decide)

/-! ## Claim theorem: login rate limiting (C6) -/

/-- C6. A client that has reached the failure threshold within the window is
answered 429 on every login attempt until the window elapses — the rate-limit
check runs before the token comparison, so even a correct token (any
`provided`) gets 429, no failure is recorded, the counter is not cleared
(the state is returned unchanged), and no session cookie is set.
The counter functions are spec-modelled (`src/lib/auth.js` is not in the
tree); the check order and response are the embedded `server.js` handler. -/
theorem login_rate_limited (maxFails window : Nat)
    (rm : List (String × RateEntry)) (ip : String) (provided : Option String)
    (expected : String) (now : Nat) (e : RateEntry)
    (hget : alistGet rm ip = some e) (hcnt : maxFails ≤ e.count)
    (hwin : now < e.windowStart + window) :
    loginHandler maxFails window rm ip provided expected now
      = ⟨.rateLimited, rm, false⟩ := by
  unfold loginHandler checkRateLimit
  rw [hget]
  simp [hcnt, hwin]

/-- Witness for C6: a client at the threshold, inside the window, presenting
the correct token. -/
theorem login_rate_limited_witness :
    loginHandler 5 600000 [("10.0.0.9", (⟨5, 1000⟩ : RateEntry))] "10.0.0.9"
        (some "secret-token") "secret-token" 2000
      = ⟨.rateLimited, [("10.0.0.9", (⟨5, 1000⟩ : RateEntry))], false⟩ :=
  login_rate_limited 5 600000 [("10.0.0.9", ⟨5, 1000⟩)] "10.0.0.9"
    (some "secret-token") "secret-token" 2000 ⟨5, 1000⟩ rfl (by decide) (by decide)

/-! ## Claim theorem: cancelled setup pipeline (C5) -/

/-- C5. `abort()` kills a live subprocess, and a close with any exit code
other than `some 0` — a killed child closes with code `null` (= `none`),
never `0` — settles the pipeline in the failure branch: no reconciliation,
no service install, no gateway start, no `done`; the only stage is
`failed`. -/
theorem setup_abort_no_started (r i s : Bool) (code : Option Int)
    (h : code ≠ some 0) :
    closeStages r i s code = [Stage.failed]
    ∧ Stage.started ∉ closeStages r i s code
    ∧ Stage.serviceInstalled ∉ closeStages r i s code
    ∧ Stage.reconciled ∉ closeStages r i s code
    ∧ abortKill (some false) = some true := by
  have hcs : closeStages r i s code = [Stage.failed] := by
    unfold closeStages
    rw [if_neg h]
  refine ⟨hcs, ?_, ?_, ?_, rfl⟩ <;> rw [hcs] <;> simp

/-- Witness for C5 at the killed-by-signal exit code `none`. -/
theorem setup_abort_no_started_witness :
    closeStages true true true none = [Stage.failed]
    ∧ Stage.started ∉ closeStages true true true none
    ∧ Stage.serviceInstalled ∉ closeStages true true true none
    ∧ Stage.reconciled ∉ closeStages true true true none
    ∧ abortKill (some false) = some true :=
  setup_abort_no_started true true true none (by simp)

/-! ## Claim theorems: profile-name validation (C8) -/

theorem isNameChar_ascii (c : Char) (h : isNameChar c = true) : c.val < 65536 := by
  unfold isNameChar at h
  simp only [Bool.or_eq_true, Bool.and_eq_true, decide_eq_true_eq] at h
  show c.val.toNat < (65536 : UInt32).toNat
  have h65536 : (65536 : UInt32).toNat = 65536 := rfl
  rcases h with ((((⟨_, hb⟩ | ⟨_, hb⟩) | ⟨_, hb⟩) | hc) | hc)
  · have hz : c.val.toNat ≤ 122 := hb
    omega
  · have hz : c.val.toNat ≤ 90 := hb
    omega
  · have hz : c.val.toNat ≤ 57 := hb
    omega
  · subst hc
    decide
  · subst hc
    decide

theorem utf16Len_eq_length_of_name_chars (s : String)
    (h : s.data.all isNameChar = true) : utf16Len s = s.data.length := by
  unfold utf16Len
  rw [List.all_eq_true] at h
  have main : ∀ (l : List Char) (a : Nat), (∀ c ∈ l, isNameChar c = true) →
      l.foldl (fun n c => n + (if c.val < 65536 then 1 else 2)) a = a + l.length := by
    intro l
    induction l with
    | nil => intro a _; simp
    | cons c rest ih =>
      intro a hall
      have hc : c.val < 65536 :=
        isNameChar_ascii c (hall c (List.mem_cons_self _ _))
      simp only [List.foldl_cons, if_pos hc, List.length_cons]
      rw [ih (a + 1) (fun x hx => hall x (List.mem_cons_of_mem _ hx))]
      omega
  exact (main s.data 0 h).trans (by omega)

theorem string_data_nil_eq (s : String) (h : s.data = []) : s = "" := by
  cases s
  simp only at h
  subst h
  rfl

/-- C8 counterexample.  The claim states that every string other than
`"default"` is accepted exactly when it matches `^[A-Za-z0-9_-]{1,32}$`.
The empty string is not `"default"` and does not match the pattern (the
pattern requires at least one character), yet `validateProfileName("")`
succeeds: the `!name` guard treats the falsy empty string like
`"default"`. -/
theorem validateProfileName_empty_accepted :
    validateProfileName "" = Except.ok ()
    ∧ specNameRegex "" = false
    ∧ "" ≠ "default" :=
  ⟨rfl, rfl, by decide⟩

/-- C8 amended.  `validateProfileName` accepts `"default"` and the empty
string unconditionally; every other (non-empty) string is accepted exactly
when it matches `^[A-Za-z0-9_-]{1,32}$` (at most 32 characters, all from the
class — non-emptiness is already given). -/
theorem validateProfileName_spec (name : String) :
    ((name = "" ∨ name = "default") → validateProfileName name = Except.ok ())
    ∧ (name ≠ "" → name ≠ "default" →
        (validateProfileName name = Except.ok () ↔ specNameRegex name = true)) := by
  constructor
  · rintro (rfl | rfl) <;> rfl
  · intro h1 h2
    have hlen1 : 1 ≤ name.data.length := by
      rcases hd : name.data with _ | ⟨c, rest⟩
      · exact absurd (string_data_nil_eq name hd) h1
      · simp
    unfold validateProfileName specNameRegex
    rw [if_neg (by simp [h1, h2])]
    by_cases hall : name.data.all isNameChar = true
    · have hlen : utf16Len name = name.data.length :=
        utf16Len_eq_length_of_name_chars name hall
      by_cases hbound : name.data.length ≤ 32
      · rw [if_neg (by omega), if_pos hall]
        have hstr : name.length = name.data.length := rfl
        simp [hall]
        omega
      · rw [if_pos (by omega)]
        simp only [hall, Bool.and_true]
        constructor
        · intro hcontra
          exact absurd hcontra (by simp)
        · intro hcontra
          simp only [Bool.and_eq_true, decide_eq_true_eq] at hcontra
          omega
    · have hall' : name.data.all isNameChar = false := by
        simpa using hall
      by_cases hbound : 32 < utf16Len name
      · rw [if_pos hbound]
        simp [hall']
      · rw [if_neg hbound, if_neg (by simp [hall'])]
        simp [hall']

/-- Witness for C8 at a concrete accepted name and a concrete rejected one. -/
theorem validateProfileName_spec_witness :
    validateProfileName "work-2" = Except.ok ()
    ∧ (validateProfileName "bad name" = Except.ok () → False) :=
  have h1 := (validateProfileName_spec "work-2").2 (by decide) (by decide)
  have h2 := (validateProfileName_spec "bad name").2 (by decide) (by decide)
  ⟨h1.mpr (by decide), fun hc => by
    have := h2.mp hc
    exact absurd this (by decide)⟩

/-! ## Claim theorem: port allocation (C2) -/

theorem countP_succ_lt_of_mem (used : List Nat) (port : Nat) (h : port ∈ used) :
    used.countP (fun x => decide (port + 1 ≤ x))
      < used.countP (fun x => decide (port ≤ x)) := by
  induction used with
  | nil => simp at h
  | cons a rest ih =>
    rw [List.countP_cons, List.countP_cons]
    rcases List.mem_cons.mp h with heq | h1
    · subst heq
      have hmono : rest.countP (fun x => decide (port + 1 ≤ x))
          ≤ rest.countP (fun x => decide (port ≤ x)) :=
        List.countP_mono_left (fun x _ hx => by
          simp only [decide_eq_true_eq] at hx ⊢
          omega)
      rw [if_neg (by simp), if_pos (by simp)]
      omega
    · have hlt := ih h1
      have hif : (if decide (port + 1 ≤ a) = true then 1 else 0)
          ≤ (if decide (port ≤ a) = true then 1 else 0) := by
        by_cases hh : port + 1 ≤ a
        · rw [if_pos (by simpa using hh), if_pos (by simp; omega)]
        · by_cases hh2 : port ≤ a <;> simp [hh, hh2]
      omega

theorem findFree_spec (used : List Nat) :
    ∀ (fuel port : Nat), used.countP (fun x => decide (port ≤ x)) < fuel →
      port ≤ findFree used fuel port
      ∧ findFree used fuel port ∉ used
      ∧ ∀ q, port ≤ q → q ∉ used → findFree used fuel port ≤ q := by
  intro fuel
  induction fuel with
  | zero => intro port h; exact absurd h (by omega)
  | succ n ih =>
    intro port h
    by_cases hmem : port ∈ used
    · rw [findFree, if_pos hmem]
      have hcount : used.countP (fun x => decide (port + 1 ≤ x)) < n := by
        have := countP_succ_lt_of_mem used port hmem
        omega
      obtain ⟨ih1, ih2, ih3⟩ := ih (port + 1) hcount
      refine ⟨by omega, ih2, ?_⟩
      intro q hq hqn
      have hq1 : port + 1 ≤ q := by
        rcases Nat.eq_or_lt_of_le hq with rfl | hlt
        · exact absurd hmem hqn
        · omega
      exact ih3 q hq1 hqn
    · rw [findFree, if_neg hmem]
      exact ⟨le_rfl, hmem, fun q hq _ => hq⟩

/-- C2.  `nextAvailablePort()` returns the smallest integer `≥ BASE_PORT`
(28789) outside the set of ports `readPort` reports for the known profiles —
and `readPort` yields `BASE_PORT` for any profile whose port cannot be read
(missing/unreadable config, absent or falsy `gateway.port`). -/
theorem nextAvailablePort_least (fs : List DirEntry) :
    BASE_PORT ≤ nextAvailablePort fs
    ∧ nextAvailablePort fs ∉ (listProfiles fs).map (readPort fs)
    ∧ ∀ q, BASE_PORT ≤ q → q ∉ (listProfiles fs).map (readPort fs) →
        nextAvailablePort fs ≤ q := by
  have h := findFree_spec ((listProfiles fs).map (readPort fs))
    (((listProfiles fs).map (readPort fs)).length + 1) BASE_PORT
    (by
      have := List.countP_le_length (p := fun x => decide (BASE_PORT ≤ x))
        (l := (listProfiles fs).map (readPort fs))
      omega)
  exact h

/-- Witness for C2: one default profile occupying the base port; the next
port is 28790, the least free one. -/
theorem nextAvailablePort_least_witness :
    BASE_PORT ≤ nextAvailablePort
        [⟨".openclaw", true, true,
          some (JVal.obj [("gateway", JVal.obj [("port", JVal.num 28789)])])⟩]
    ∧ nextAvailablePort
        [⟨".openclaw", true, true,
          some (JVal.obj [("gateway", JVal.obj [("port", JVal.num 28789)])])⟩]
      ∉ (listProfiles
          [⟨".openclaw", true, true,
            some (JVal.obj [("gateway", JVal.obj [("port", JVal.num 28789)])])⟩]).map
          (readPort
            [⟨".openclaw", true, true,
              some (JVal.obj [("gateway", JVal.obj [("port", JVal.num 28789)])])⟩])
    ∧ nextAvailablePort
        [⟨".openclaw", true, true,
          some (JVal.obj [("gateway", JVal.obj [("port", JVal.num 28789)])])⟩]
      ≤ 28790 :=
  have h := nextAvailablePort_least
    [⟨".openclaw", true, true,
      some (JVal.obj [("gateway", JVal.obj [("port", JVal.num 28789)])])⟩]
  ⟨h.1, h.2.1, h.2.2 28790 (by decide) (by decide)⟩

/-! ## Claim theorems: profile deletion (C9) -/

theorem string_ext_data (a b : String) (h : a.data = b.data) : a = b := by
  cases a
  cases b
  exact congrArg String.mk (by simpa using h)

theorem string_data_append (a b : String) : (a ++ b).data = a.data ++ b.data := by
  cases a
  cases b
  rfl

theorem strStartsWith_eq_append (s pre : String) (h : strStartsWith s pre = true) :
    s.data = pre.data ++ (strDrop s pre.length).data := by
  unfold strStartsWith at h
  rw [List.isPrefixOf_iff_prefix] at h
  obtain ⟨t, ht⟩ := h
  show s.data = pre.data ++ (s.data.drop pre.length)
  have hlen : pre.length = pre.data.length := rfl
  rw [hlen, ← ht, List.drop_left]

theorem findEntry_delete_self (fs : List DirEntry) (p : String) :
    findEntry (deleteProfile fs p) (profileDirName p) = none := by
  unfold findEntry deleteProfile
  rw [List.find?_eq_none]
  intro e he
  have h2 := (List.mem_filter.mp he).2
  simp only [decide_eq_true_eq] at h2 ⊢
  exact h2

/-- C9 counterexample.  The claim says that after `deleteProfile(p)` every
`getProfileInfo(p)` call returns `NotFound`.  The source's `getProfileInfo`
never fails: on the deleted profile it returns an ordinary (degraded) record
— base port, probe-based status, empty model/channel — with no error of any
kind, exactly as its `catch` branch is written to do.  (The listing part of
the claim does hold: the profile is gone from `listProfiles()`.) -/
theorem deleteProfile_info_not_notfound :
    "work" ∉ listProfiles (deleteProfile
        [⟨".openclaw-work", true, true, some (JVal.obj [])⟩] "work")
    ∧ getProfileInfo (fun _ => false) (deleteProfile
        [⟨".openclaw-work", true, true, some (JVal.obj [])⟩] "work") "work"
      = ⟨"work", 28789, "stopped", "", "", ""⟩ := by
  exact ⟨by decide, by decide⟩

/-- C9 amended.  After `deleteProfile(p)`, `p` no longer appears in
`listProfiles()`, and `getProfileInfo(p)` — which never returns `NotFound` —
returns the degraded record: `BASE_PORT` as the port, liveness from probing
that base port, and empty model/modelId/channel.  (For `p = "default"` the
home directory must not contain a stray `.openclaw-default` directory, which
nothing in the manager ever creates; a named profile needs no proviso.) -/
theorem deleteProfile_delists (fs : List DirEntry) (p : String)
    (probe : Nat → Bool)
    (hdef : p = "default" → findEntry fs ".openclaw-default" = none) :
    p ∉ listProfiles (deleteProfile fs p)
    ∧ getProfileInfo probe (deleteProfile fs p) p
      = ⟨p, BASE_PORT, if probe BASE_PORT then "running" else "stopped",
          "", "", ""⟩ := by
  constructor
  · intro hmem
    unfold listProfiles at hmem
    rcases List.mem_append.mp hmem with hm | hm
    · -- the "default" part: its directory was just removed when p = "default"
      by_cases hif : hasConfigFile (deleteProfile fs p) "default" = true
      · rw [if_pos hif] at hm
        have hp : p = "default" := by simpa using hm
        subst hp
        unfold hasConfigFile at hif
        rw [findEntry_delete_self] at hif
        simp at hif
      · rw [if_neg hif] at hm
        simp at hm
    · -- the directory-scan part
      obtain ⟨e, he, hfe⟩ := List.mem_filterMap.mp hm
      have hsub := List.mem_filter.mp he
      have hne : e.name ≠ profileDirName p := by
        have := hsub.2
        simpa using this
      by_cases hcond : (e.isDir && strStartsWith e.name ".openclaw-") = true
      · rw [if_pos hcond] at hfe
        have hdropped : strDrop e.name ".openclaw-".length = p := by
          by_cases hok : (strDrop e.name ".openclaw-".length ≠ ""
              && e.hasCfgFile) = true
          · rw [if_pos hok] at hfe
            exact Option.some.inj hfe
          · rw [if_neg hok] at hfe
            exact Option.noConfusion hfe
        have hstart : strStartsWith e.name ".openclaw-" = true :=
          (Bool.and_eq_true .. ▸ hcond).2
        have hdata : e.name.data = ".openclaw-".data ++ p.data := by
          rw [strStartsWith_eq_append e.name ".openclaw-" hstart, hdropped]
        by_cases hp : p = "default"
        · subst hp
          have hnm : e.name = ".openclaw-default" :=
            string_ext_data _ _ (by rw [hdata]; rfl)
          have hnone := hdef rfl
          unfold findEntry at hnone
          rw [List.find?_eq_none] at hnone
          have := hnone e hsub.1
          simp [hnm] at this
        · have hnm : e.name = profileDirName p := by
            apply string_ext_data
            rw [hdata]
            unfold profileDirName
            rw [if_neg hp, string_data_append]
          exact hne hnm
      · rw [if_neg hcond] at hfe
        exact Option.noConfusion hfe
  · have hcfg : readCfg (deleteProfile fs p) p = none := by
      unfold readCfg
      rw [findEntry_delete_self]
      rfl
    have hport : readPort (deleteProfile fs p) p = BASE_PORT := by
      unfold readPort
      rw [hcfg]
    unfold getProfileInfo
    rw [hcfg, hport]

/-- Witness for C9 on a two-profile home directory: deleting `"work"` leaves
only `"other"`. -/
theorem deleteProfile_delists_witness :
    "work" ∉ listProfiles (deleteProfile
        [⟨".openclaw-work", true, true, some (JVal.obj [])⟩,
         ⟨".openclaw-other", true, true, some (JVal.obj [])⟩] "work")
    ∧ getProfileInfo (fun _ => true) (deleteProfile
        [⟨".openclaw-work", true, true, some (JVal.obj [])⟩,
         ⟨".openclaw-other", true, true, some (JVal.obj [])⟩] "work") "work"
      = ⟨"work", 28789, "running", "", "", ""⟩ :=
  deleteProfile_delists
    [⟨".openclaw-work", true, true, some (JVal.obj [])⟩,
     ⟨".openclaw-other", true, true, some (JVal.obj [])⟩] "work" (fun _ => true)
    (fun h => absurd h (by decide))

/-! ## Claim theorems: model fallback in `generateConfig` (C10) -/

/-- C10 counterexample.  The claim says that for a `modelId` that is not a
catalog id, the requested id "appears nowhere in the document".  Take the
non-catalog id `"anthropic/claude-opus-4-6"`: the fallback document's
`agents.defaults.model.primary` is the string `"anthropic/claude-opus-4-6"` —
the requested id itself appears in the document. -/
theorem generateConfig_requested_id_appears :
    MODEL_CATALOG.find? (fun m => m.id = "anthropic/claude-opus-4-6") = none
    ∧ getPath (generateConfig "k" "anthropic/claude-opus-4-6" "none"
        ⟨"", "", ""⟩ 30000) ["agents", "defaults", "model", "primary"]
      = some (JVal.str "anthropic/claude-opus-4-6") := by
  exact ⟨rfl, rfl⟩

/-- C10 amended.  For every `modelId` that is not the id of any
`MODEL_CATALOG` entry, `generateConfig` silently falls back to the first
catalog entry: `agents.defaults.model.primary` is
`"anthropic/claude-opus-4-6"`, `models.providers.anthropic.models[0].id` is
`"claude-opus-4-6"`, no error is raised, and the requested id has no
influence on the result — the document equals the one generated for
`"claude-opus-4-6"` (so the requested id is never used as a model id; it can
still coincide textually with another field's value, as the counterexample
shows). -/
theorem generateConfig_fallback (apiKey modelId channel : String)
    (creds : ChannelCreds) (port : Nat)
    (h : MODEL_CATALOG.find? (fun m => m.id = modelId) = none) :
    getPath (generateConfig apiKey modelId channel creds port)
        ["agents", "defaults", "model", "primary"]
      = some (JVal.str "anthropic/claude-opus-4-6")
    ∧ ((getPath (generateConfig apiKey modelId channel creds port)
          ["models", "providers", "anthropic", "models"]).bind
        (fun v => getIdx v 0)).bind (fun m => getField m "id")
      = some (JVal.str "claude-opus-4-6")
    ∧ generateConfig apiKey modelId channel creds port
      = generateConfig apiKey "claude-opus-4-6" channel creds port := by
  unfold generateConfig
  rw [h]
  by_cases h1 : channel = "telegram"
  · subst h1
    exact ⟨rfl, rfl, rfl⟩
  · by_cases h2 : channel = "feishu"
    · subst h2
      exact ⟨rfl, rfl, rfl⟩
    · simp only [if_neg h1, if_neg h2]
      exact ⟨rfl, rfl, rfl⟩

/-- Witness for C10 at a concrete unknown id. -/
theorem generateConfig_fallback_witness :
    getPath (generateConfig "k" "not-a-model" "telegram" ⟨"tok", "", ""⟩ 30001)
        ["agents", "defaults", "model", "primary"]
      = some (JVal.str "anthropic/claude-opus-4-6")
    ∧ ((getPath (generateConfig "k" "not-a-model" "telegram" ⟨"tok", "", ""⟩ 30001)
          ["models", "providers", "anthropic", "models"]).bind
        (fun v => getIdx v 0)).bind (fun m => getField m "id")
      = some (JVal.str "claude-opus-4-6")
    ∧ generateConfig "k" "not-a-model" "telegram" ⟨"tok", "", ""⟩ 30001
      = generateConfig "k" "claude-opus-4-6" "telegram" ⟨"tok", "", ""⟩ 30001 :=
  generateConfig_fallback "k" "not-a-model" "telegram" ⟨"tok", "", ""⟩ 30001 rfl

end OpenclawManager
